import Mathlib

set_option autoImplicit false

/-!
Shallow embedding of `src/core/abstractsettings.cpp` (class `AbstractSettings`),
the typed settings registry of the ArrowDL download manager.

Modelling decisions:
* A Qt `QString` is modelled as `Option String`: `none` is the null `QString`
  (the state of a default-constructed `QString`), `some s` a non-null string.
  Qt's `operator==` on `QString` compares contents only (a null string compares
  equal to the empty string), so comparisons in the source are translated with
  `qeq`, which compares the `content` of both sides.  `isNull` distinguishes
  `none` from `some ""` exactly as `QString::isNull` does.
* Keys are plain `String`s: the source only ever applies content-based
  operations to keys (`isEmpty`, `==`, formatting), never `isNull`.
* `emit changed()` is modelled by returning the number of emissions alongside
  the new state.
* C++ exceptions are modelled with `Except` for the scalar operations (their
  checks all precede any mutation, so a thrown exception leaves the registry
  unchanged).  The string-list loops mutate while they run, so they return the
  partially-updated state together with an optional exception.
* `QSettings` (restricted to the group `"Preference"` that the source uses) is
  modelled as an association list from store keys to stored `QString`s.
-/

namespace ArrowDL

/-- Source: `static const QLatin1String UNDEFINED ("<UNDEFINED>")`. -/
def UNDEFINED : String := "<UNDEFINED>"

/-- Source: `static const QLatin1String VALUE_TRUE ("<TRUE>")`. -/
def VALUE_TRUE : String := "<TRUE>"

/-- Source: `static const QLatin1String VALUE_FALSE ("<FALSE>")`. -/
def VALUE_FALSE : String := "<FALSE>"

/-- A Qt `QString`: `none` is the null string, `some s` a non-null string. -/
abbrev QStr := Option String

/-- The character data of a `QString`; the null string has empty content. -/
def QStr.content : QStr → String
  | none => ""
  | some s => s

/-- Model of `QString::isNull`. -/
def QStr.isNull : QStr → Bool
  | none => true
  | some _ => false

/-- Qt `QString::operator==`: contents are compared, so null equals empty. -/
def qeq (a b : QStr) : Bool := a.content == b.content

/-- Source: `enum AbstractSettings::KeyType`. -/
inductive KeyType where
  | BOOL
  | INTEGER
  | STRING
deriving DecidableEq, Repr

/-- Source: `struct AbstractSettings::SettingsItem`.  A freshly `new`-ed item has a
default-constructed (null) `value`; `_q_addDefaultSetting` assigns only `key`,
`keyType` and `defaultValue`. -/
structure SettingsItem where
  keyType : KeyType
  key : String
  value : QStr
  defaultValue : QStr
deriving DecidableEq, Repr

/-- The mutable state of an `AbstractSettings` object: the item list `m_items`
and the restore-default (preview) flag `m_default` (initially `false`). -/
structure AbstractSettings where
  m_items : List SettingsItem
  m_default : Bool
deriving DecidableEq, Repr

/-- A freshly constructed `AbstractSettings` object. -/
def freshSettings : AbstractSettings := { m_items := [], m_default := false }

/-- The exception taxonomy of `abstractsettings.h`. -/
inductive SettingsError where
  | IllegalKeyException
  | IllegalValueException
  | MissingKeyException
  | WrongTypeException
deriving DecidableEq, Repr

/-- Source: `static QString boolToString(bool b)`. -/
def boolToString (b : Bool) : QStr := some (if b then VALUE_TRUE else VALUE_FALSE)

/-- Source: `static bool stringToBool(const QString &str)`: `str == VALUE_TRUE`. -/
def stringToBool (str : QStr) : Bool := qeq str (some VALUE_TRUE)

/-- Source: `static QString intToString(int value)`, via `QString::number`. -/
def intToString (value : Int) : QStr := some (toString value)

/-- Source: `static int stringToInt(const QString &str)`, via `QString::toInt`, which
returns 0 when the conversion fails.  (Modelled with `String.toInt?`; the
round trip with `intToString` agrees with Qt on every serialized integer.) -/
def stringToInt (str : QStr) : Int := (str.content.toInt?).getD 0

/-- Source: `beginRestoreDefault()`: sets `m_default = true`. -/
def beginRestoreDefault (s : AbstractSettings) : AbstractSettings :=
  { s with m_default := true }

/-- Source: `endRestoreDefault()`: sets `m_default = false`. -/
def endRestoreDefault (s : AbstractSettings) : AbstractSettings :=
  { s with m_default := false }

/-- The `foreach` loop of `_q_addDefaultSetting`: replace the default of the
first item matching both key and type, else append a fresh item (whose `value`
is the default-constructed null string) at the end. -/
def addDefaultSettingLoop (key : String) (defaultValue : QStr) (keyType : KeyType) :
    List SettingsItem → List SettingsItem
  | [] => [{ keyType := keyType, key := key, value := none, defaultValue := defaultValue }]
  | item :: rest =>
    if item.keyType == keyType && item.key == key then
      { item with defaultValue := defaultValue } :: rest
    else
      item :: addDefaultSettingLoop key defaultValue keyType rest

/-- Source: `AbstractSettings::_q_addDefaultSetting`. -/
def _q_addDefaultSetting (s : AbstractSettings) (key : String) (defaultValue : QStr)
    (keyType : KeyType) : Except SettingsError AbstractSettings :=
  if key.isEmpty || key == UNDEFINED then
    .error .IllegalKeyException
  else if defaultValue.isNull || qeq defaultValue (some UNDEFINED) then
    .error .IllegalValueException
  else
    .ok { s with m_items := addDefaultSettingLoop key defaultValue keyType s.m_items }

/-- The `foreach` loop of `_q_getSetting`: the first item whose key matches
decides the outcome. -/
def getSettingLoop (key : String) (keyType : KeyType) (mdefault : Bool) :
    List SettingsItem → Except SettingsError QStr
  | [] => .error .MissingKeyException
  | item :: rest =>
    if item.key == key then
      if item.keyType != keyType then .error .WrongTypeException
      else .ok (if mdefault then item.defaultValue else item.value)
    else getSettingLoop key keyType mdefault rest

/-- Source: `AbstractSettings::_q_getSetting`. -/
def _q_getSetting (s : AbstractSettings) (key : String) (keyType : KeyType) :
    Except SettingsError QStr :=
  if key.isEmpty || key == UNDEFINED then
    .error .IllegalKeyException
  else getSettingLoop key keyType s.m_default s.m_items

/-- The `foreach` loop of `_q_setSetting`: the first item whose key matches is
updated (emitting `changed`) when the new value differs from the stored one. -/
def setSettingLoop (key : String) (value : QStr) (keyType : KeyType) :
    List SettingsItem → Except SettingsError (List SettingsItem × Nat)
  | [] => .error .MissingKeyException
  | item :: rest =>
    if item.key == key then
      if item.keyType != keyType then .error .WrongTypeException
      else if !qeq item.value value then .ok ({ item with value := value } :: rest, 1)
      else .ok (item :: rest, 0)
    else
      match setSettingLoop key value keyType rest with
      | .error e => .error e
      | .ok (rest', n) => .ok (item :: rest', n)

/-- Source: `AbstractSettings::_q_setSetting`; the `Nat` counts `changed` emissions. -/
def _q_setSetting (s : AbstractSettings) (key : String) (value : QStr) (keyType : KeyType) :
    Except SettingsError (AbstractSettings × Nat) :=
  if key.isEmpty || key == UNDEFINED then
    .error .IllegalKeyException
  else if value.isNull || qeq value (some UNDEFINED) then
    .error .IllegalValueException
  else
    match setSettingLoop key value keyType s.m_items with
    | .error e => .error e
    | .ok (items, n) => .ok ({ s with m_items := items }, n)

/-- Source: `addDefaultSettingBool`. -/
def addDefaultSettingBool (s : AbstractSettings) (key : String) (defaultValue : Bool) :
    Except SettingsError AbstractSettings :=
  _q_addDefaultSetting s key (boolToString defaultValue) .BOOL

/-- Source: `getSettingBool`. -/
def getSettingBool (s : AbstractSettings) (key : String) : Except SettingsError Bool :=
  (_q_getSetting s key .BOOL).map stringToBool

/-- Source: `setSettingBool`. -/
def setSettingBool (s : AbstractSettings) (key : String) (value : Bool) :
    Except SettingsError (AbstractSettings × Nat) :=
  _q_setSetting s key (boolToString value) .BOOL

/-- Source: `addDefaultSettingInt`. -/
def addDefaultSettingInt (s : AbstractSettings) (key : String) (defaultValue : Int) :
    Except SettingsError AbstractSettings :=
  _q_addDefaultSetting s key (intToString defaultValue) .INTEGER

/-- Source: `getSettingInt`. -/
def getSettingInt (s : AbstractSettings) (key : String) : Except SettingsError Int :=
  (_q_getSetting s key .INTEGER).map stringToInt

/-- Source: `setSettingInt`. -/
def setSettingInt (s : AbstractSettings) (key : String) (value : Int) :
    Except SettingsError (AbstractSettings × Nat) :=
  _q_setSetting s key (intToString value) .INTEGER

/-- Source: `addDefaultSettingString`. -/
def addDefaultSettingString (s : AbstractSettings) (key : String) (defaultValue : QStr) :
    Except SettingsError AbstractSettings :=
  _q_addDefaultSetting s key defaultValue .STRING

/-- Source: `getSettingString`. -/
def getSettingString (s : AbstractSettings) (key : String) : Except SettingsError QStr :=
  _q_getSetting s key .STRING

/-- Source: `setSettingString`. -/
def setSettingString (s : AbstractSettings) (key : String) (value : QStr) :
    Except SettingsError (AbstractSettings × Nat) :=
  _q_setSetting s key value .STRING

/-- The sub-key `QString("%0%1").arg(key).arg(i)` of a string-list entry.
The model assumes the key contains no `QString::arg` place markers (`%1` …),
which holds for the identifier-like keys the application uses. -/
def subKey (key : String) (i : Nat) : String := key ++ toString i

/-- Source: `AbstractSettings::getSettingStringList`: for each index `i` below
`m_items.count()`, append the effective value of every item whose key is
`key + i` (note: the outer loop is bounded by the item count, not by the
first missing index). -/
def getSettingStringList (s : AbstractSettings) (key : String) : List QStr :=
  (List.range s.m_items.length).foldl (fun ret i =>
    s.m_items.foldl (fun ret item =>
      if item.key == subKey key i then
        ret ++ [if s.m_default then item.defaultValue else item.value]
      else ret) ret) []

/-- The loop of `addDefaultSettingStringList`, registering `key + idx`,
`key + (idx+1)`, …; a thrown exception stops the loop, keeping the
registrations already performed. -/
def addDefaultSettingStringListAux (s : AbstractSettings) (key : String) (idx : Nat) :
    List QStr → AbstractSettings × Option SettingsError
  | [] => (s, none)
  | v :: rest =>
    match addDefaultSettingString s (subKey key idx) v with
    | .error e => (s, some e)
    | .ok s' => addDefaultSettingStringListAux s' key (idx + 1) rest

/-- Source: `AbstractSettings::addDefaultSettingStringList`. -/
def addDefaultSettingStringList (s : AbstractSettings) (key : String) (defaultValue : List QStr) :
    AbstractSettings × Option SettingsError :=
  addDefaultSettingStringListAux s key 0 defaultValue

/-- The loop of `setSettingStringList`, setting `key + idx`, `key + (idx+1)`, …;
a thrown exception stops the loop but the sub-keys already set keep their new
values (no rollback).  The `Nat` counts `changed` emissions. -/
def setSettingStringListAux (s : AbstractSettings) (key : String) (idx : Nat) :
    List QStr → AbstractSettings × Nat × Option SettingsError
  | [] => (s, 0, none)
  | v :: rest =>
    match setSettingString s (subKey key idx) v with
    | .error e => (s, 0, some e)
    | .ok (s', n) =>
      let r := setSettingStringListAux s' key (idx + 1) rest
      (r.1, n + r.2.1, r.2.2)

/-- Source: `AbstractSettings::setSettingStringList`. -/
def setSettingStringList (s : AbstractSettings) (key : String) (value : List QStr) :
    AbstractSettings × Nat × Option SettingsError :=
  setSettingStringListAux s key 0 value

/-- The external `QSettings` store (inside the group `"Preference"`): an
association list from store keys to stored strings. -/
abbrev Store := List (String × QStr)

/-- The stored value at `name`, if any (the first entry with that key). -/
def storeFind : Store → String → Option QStr
  | [], _ => none
  | p :: st, name => if p.1 == name then some p.2 else storeFind st name

/-- Model of `QSettings::contains`. -/
def storeContains (st : Store) (name : String) : Bool :=
  st.any (fun p => p.1 == name)

/-- Model of `QSettings::value(name, dflt)`. -/
def storeValue (st : Store) (name : String) (dflt : QStr) : QStr :=
  (storeFind st name).getD dflt

/-- Model of `QSettings::setValue(name, v)`: overwrite the entry if present, else add it. -/
def storeSetValue (st : Store) (name : String) (v : QStr) : Store :=
  if storeContains st name then
    st.map (fun p => if p.1 == name then (p.1, v) else p)
  else
    st ++ [(name, v)]

/-- Source: `AbstractSettings::uniqueRegisterKey`: the store key of an item—the item
key suffixed with a type tag for booleans and integers, unsuffixed for strings. -/
def uniqueRegisterKey (item : SettingsItem) : String :=
  match item.keyType with
  | .BOOL => item.key ++ "_bool"
  | .INTEGER => item.key ++ "_int"
  | .STRING => item.key

/-- The body of the `foreach` loop of `readSettings`, for one item: read the
namespaced key with fallback `UNDEFINED`; take the stored value unless it reads
back as `UNDEFINED`, else the item's default. -/
def readItem (st : Store) (item : SettingsItem) : SettingsItem :=
  let value := storeValue st (uniqueRegisterKey item) (some UNDEFINED)
  { item with value := if !qeq value (some UNDEFINED) then value else item.defaultValue }

/-- Source: `AbstractSettings::readSettings`; the `Nat` counts `changed` emissions
(one, after the whole batch). -/
def readSettings (s : AbstractSettings) (st : Store) : AbstractSettings × Nat :=
  ({ s with m_items := s.m_items.map (readItem st) }, 1)

/-- The body of the `foreach` loop of `writeSettings`, for one item: write the
item's current value under its namespaced key when it differs from the default
or the store already contains that key. -/
def writeItemStep (acc : Store) (item : SettingsItem) : Store :=
  let name := uniqueRegisterKey item
  if !qeq item.value item.defaultValue || storeContains acc name then
    storeSetValue acc name item.value
  else acc

/-- Source: `AbstractSettings::writeSettings`. -/
def writeSettings (s : AbstractSettings) (st : Store) : Store :=
  s.m_items.foldl writeItemStep st

/-! ## Schema re-registration (for the save/load round trip) -/

/-- The schema of a registry: the key, default and type of each entry, in
registration order (the data a client re-registers on a fresh registry). -/
def schemaOf (s : AbstractSettings) : List (String × QStr × KeyType) :=
  s.m_items.map (fun it => (it.key, it.defaultValue, it.keyType))

/-- Registration of a whole schema, one `_q_addDefaultSetting` per triple; a
thrown exception stops the sequence. -/
def registerSchema (s : AbstractSettings) :
    List (String × QStr × KeyType) → AbstractSettings × Option SettingsError
  | [] => (s, none)
  | (key, dv, kt) :: rest =>
    match _q_addDefaultSetting s key dv kt with
    | .error e => (s, some e)
    | .ok s' => registerSchema s' rest

/-- The registry whose items are those of `s` with every current value reset
to the default-constructed null string and preview mode off; this is what
registering `schemaOf s` on a fresh registry produces
(`registerSchema_freshLike`). -/
def freshLike (s : AbstractSettings) : AbstractSettings :=
  { m_items := s.m_items.map (fun it => { it with value := none }), m_default := false }

/-! ## Operation sequences

The public API of the registry is closed into an operation type so that
reachability invariants ("after every sequence of register/get/set/load/save
operations") can be stated.  Reads are included and leave the state unchanged.
A scalar register or set whose checks throw leaves the state unchanged (in the
source the checks precede the mutation); the string-list loops keep the
partial updates made before a throw, as the source does. -/

/-- One call of the registry API. -/
inductive SettingsOp where
  | regBool (key : String) (d : Bool)
  | regInt (key : String) (d : Int)
  | regString (key : String) (d : QStr)
  | regStringList (key : String) (d : List QStr)
  | setBool (key : String) (v : Bool)
  | setInt (key : String) (v : Int)
  | setString (key : String) (v : QStr)
  | setStringList (key : String) (v : List QStr)
  | getScalar (key : String) (t : KeyType)
  | getList (key : String)
  | load (st : Store)
  | save (st : Store)
  | beginPreview
  | endPreview
deriving DecidableEq, Repr

/-- The registry state after one API call (the store effect of `save` and the
results of reads are not part of the registry state). -/
def applyOp (s : AbstractSettings) : SettingsOp → AbstractSettings
  | .regBool key d =>
    match addDefaultSettingBool s key d with | .ok s' => s' | .error _ => s
  | .regInt key d =>
    match addDefaultSettingInt s key d with | .ok s' => s' | .error _ => s
  | .regString key d =>
    match addDefaultSettingString s key d with | .ok s' => s' | .error _ => s
  | .regStringList key d => (addDefaultSettingStringList s key d).1
  | .setBool key v =>
    match setSettingBool s key v with | .ok r => r.1 | .error _ => s
  | .setInt key v =>
    match setSettingInt s key v with | .ok r => r.1 | .error _ => s
  | .setString key v =>
    match setSettingString s key v with | .ok r => r.1 | .error _ => s
  | .setStringList key v => (setSettingStringList s key v).1
  | .getScalar _ _ => s
  | .getList _ => s
  | .load st => (readSettings s st).1
  | .save _ => s
  | .beginPreview => beginRestoreDefault s
  | .endPreview => endRestoreDefault s

/-- The registry state after a sequence of API calls on a fresh registry. -/
def runOps (s : AbstractSettings) (ops : List SettingsOp) : AbstractSettings :=
  ops.foldl applyOp s

/-- The per-item part of the C2 invariant: the default is a non-null string
different from the `"<UNDEFINED>"` sentinel, and the current value never has
the sentinel as content (it may, however, be the null string). -/
def ItemOk (item : SettingsItem) : Prop :=
  item.defaultValue.isNull = false
  ∧ item.defaultValue.content ≠ UNDEFINED
  ∧ item.value.content ≠ UNDEFINED

/-- Replacement of the value of the first item whose key matches; this is the
shape of the successful updating branch of `setSettingLoop`. -/
def setFirst (key : String) (value : QStr) : List SettingsItem → List SettingsItem
  | [] => []
  | item :: rest =>
    if item.key == key then { item with value := value } :: rest
    else item :: setFirst key value rest


/-! ## Concrete sample states used by the witnesses -/

/-- A boolean item for key `"k"` that was set to `true` over a default of
`false` (serialized forms). -/
def itemKTrue : SettingsItem :=
  { keyType := .BOOL, key := "k", value := some "<TRUE>", defaultValue := some "<FALSE>" }

/-- A one-item registry holding `itemKTrue`, preview mode off. -/
def regKTrue : AbstractSettings := { m_items := [itemKTrue], m_default := false }

/-- A freshly registered boolean item for key `"k"` with default `true`: its
current value is the default-constructed null string. -/
def itemKFresh : SettingsItem :=
  { keyType := .BOOL, key := "k", value := none, defaultValue := some "<TRUE>" }

/-- A one-item registry holding `itemKFresh`, preview mode off. -/
def regKFresh : AbstractSettings := { m_items := [itemKFresh], m_default := false }

/-- A boolean item for key `"k"` whose current value was set back to its
default `"<FALSE>"`. -/
def itemKDefault : SettingsItem :=
  { keyType := .BOOL, key := "k", value := some "<FALSE>", defaultValue := some "<FALSE>" }

/-- A one-item registry holding `itemKDefault`, preview mode off. -/
def regKDefault : AbstractSettings := { m_items := [itemKDefault], m_default := false }

/-- A string item for key `"s"` whose current value equals its default. -/
def itemSDefault : SettingsItem :=
  { keyType := .STRING, key := "s", value := some "x", defaultValue := some "x" }

/-- A two-item registry exercising both round-trip cases: a value differing
from its default and a value equal to its (never stored) default. -/
def regRoundtrip : AbstractSettings :=
  { m_items := [itemKTrue, itemSDefault], m_default := false }

/-- A string item registered for sub-key `"k0"` of the base key `"k"`. -/
def itemK0 : SettingsItem :=
  { keyType := .STRING, key := "k0", value := none, defaultValue := some "d0" }

/-- A registry with only the sub-key `"k0"` of `"k"` registered, so a
two-element `setStringList` on `"k"` fails at index 1. -/
def regK0 : AbstractSettings := { m_items := [itemK0], m_default := false }

/-- The registry after registering string entries for `"other"` (default
`"x"`) and `"k1"` (default `"b"`) on a fresh registry: the sub-key `"k0"` of
the base key `"k"` is missing while `"k1"` is present. -/
def regGap : AbstractSettings :=
  { m_items := [{ keyType := .STRING, key := "other", value := none, defaultValue := some "x" },
                { keyType := .STRING, key := "k1", value := none, defaultValue := some "b" }],
    m_default := false }

/-! ## Derived descriptions of the loops

The three `foreach` loops over `m_items` are characterised through
`List.find?` on the key predicate, which is how the rest of the development
reasons about them. -/

lemma getSettingLoop_eq_find (key : String) (keyType : KeyType) (mdefault : Bool)
    (items : List SettingsItem) :
    getSettingLoop key keyType mdefault items =
      match items.find? (fun it => it.key == key) with
      | none => .error .MissingKeyException
      | some item =>
        if item.keyType != keyType then .error .WrongTypeException
        else .ok (if mdefault then item.defaultValue else item.value) := by
  induction items with
  | nil => rfl
  | cons item rest ih =>
    by_cases h : item.key = key
    · simp [getSettingLoop, List.find?, h]
    · have hb : (item.key == key) = false := by simp [h]
      simp [getSettingLoop, List.find?, hb, ih]

lemma setSettingLoop_eq_find (key : String) (value : QStr) (keyType : KeyType)
    (items : List SettingsItem) :
    setSettingLoop key value keyType items =
      match items.find? (fun it => it.key == key) with
      | none => .error .MissingKeyException
      | some item =>
        if item.keyType != keyType then .error .WrongTypeException
        else if !qeq item.value value then .ok (setFirst key value items, 1)
        else .ok (items, 0) := by
  induction items with
  | nil => rfl
  | cons item rest ih =>
    by_cases h : item.key = key
    · simp only [setSettingLoop, List.find?, h, beq_self_eq_true, if_true, cond_true]
      by_cases ht : item.keyType != keyType
      · simp [ht]
      · by_cases hv : !qeq item.value value
        · simp [ht, hv, setFirst, h]
        · simp [ht, hv]
    · have hb : (item.key == key) = false := by simp [h]
      simp only [setSettingLoop, List.find?, hb, if_false, cond_false, ih, setFirst]
      cases hf : rest.find? (fun it => it.key == key) with
      | none => simp
      | some item' =>
        by_cases ht : item'.keyType != keyType
        · simp [ht]
        · by_cases hv : !qeq item'.value value
          · simp [ht, hv]
          · simp [ht, hv]

lemma setFirst_find_self (key : String) (value : QStr) (items : List SettingsItem)
    (item : SettingsItem) (h : items.find? (fun it => it.key == key) = some item) :
    (setFirst key value items).find? (fun it => it.key == key) =
      some { item with value := value } := by
  induction items with
  | nil => simp [List.find?] at h
  | cons a rest ih =>
    by_cases ha : a.key = key
    · simp only [List.find?, ha, beq_self_eq_true, Option.some.injEq] at h
      subst h
      simp [setFirst, List.find?, ha]
    · have hb : (a.key == key) = false := by simp [ha]
      simp only [List.find?, hb] at h
      simp [setFirst, List.find?, hb, ha, ih h]

lemma setFirst_find_ne (key k' : String) (value : QStr) (items : List SettingsItem)
    (h : k' ≠ key) :
    (setFirst key value items).find? (fun it => it.key == k') =
      items.find? (fun it => it.key == k') := by
  induction items with
  | nil => rfl
  | cons a rest ih =>
    have hkkb : (key == k') = false := by simp; exact fun hh => h hh.symm
    by_cases ha : a.key = key
    · have hakb : (a.key == k') = false := by rw [ha]; exact hkkb
      simp [setFirst, List.find?, ha, hakb, hkkb, ih]
    · by_cases hk : a.key = k'
      · simp [setFirst, List.find?, ha, hk, h]
      · have hkb : (a.key == k') = false := by simp; exact hk
        simp [setFirst, List.find?, ha, hkb, ih]

lemma setFirst_map_key (key : String) (value : QStr) (items : List SettingsItem) :
    (setFirst key value items).map (fun it => it.key) = items.map (fun it => it.key) := by
  induction items with
  | nil => rfl
  | cons a rest ih =>
    by_cases ha : a.key = key
    · simp [setFirst, ha]
    · simp [setFirst, ha, ih]

/-! ## Claim theorems -/

/-- C9: every scalar get or set called with an empty key or with the reserved
`"<UNDEFINED>"` sentinel as key fails with `IllegalKeyException`, whatever the
registry state (in particular before any missing-key or wrong-type check, and
the state is not mutated since the check precedes the mutating loop). -/
theorem C9_illegal_key_rejected_first (s : AbstractSettings) (key : String) (value : QStr)
    (keyType : KeyType) (hkey : (key.isEmpty || key == UNDEFINED) = true) :
    _q_getSetting s key keyType = .error .IllegalKeyException
    ∧ _q_setSetting s key value keyType = .error .IllegalKeyException := by
  constructor
  · simp [_q_getSetting, hkey]
  · simp [_q_setSetting, hkey]

/-- Witness for C9 at the empty key and at the sentinel key, on a registry
that registers neither. -/
theorem C9_illegal_key_rejected_first_witness :
    (_q_getSetting regKFresh "" .BOOL = .error .IllegalKeyException
      ∧ _q_setSetting regKFresh "" (some "v") .BOOL = .error .IllegalKeyException)
    ∧ (_q_getSetting freshSettings "<UNDEFINED>" .STRING = .error .IllegalKeyException
      ∧ _q_setSetting freshSettings "<UNDEFINED>" (some "v") .STRING
        = .error .IllegalKeyException) :=
  ⟨C9_illegal_key_rejected_first regKFresh "" (some "v") .BOOL (by decide),
   C9_illegal_key_rejected_first freshSettings "<UNDEFINED>" (some "v") .STRING (by decide)⟩

/-- C1 counterexample: on a fresh registry, `registerBool("Enabled", true)`
followed (with no set or load) by `getBool("Enabled")` returns `false`, not the
registered default `true`: the freshly created item's current value is the
default-constructed null string, and a non-preview read decodes that, not the
default. -/
theorem C1_counterexample :
    (addDefaultSettingBool freshSettings "Enabled" true).map
        (fun s => getSettingBool s "Enabled") = .ok (.ok false)
    ∧ (Except.ok (Except.ok false) : Except SettingsError (Except SettingsError Bool))
        ≠ .ok (.ok true) := by
  constructor
  · rfl
  · simp

/-- C1 (amended): immediately after `registerBool(k, d)` on a fresh registry,
with no intervening set or load, a non-preview `getBool(k)` returns `false`
(the boolean decode of the uninitialized null current value) whatever the
default `d`; the registered default is reported only in preview-defaults
mode. -/
theorem C1_amended_register_then_getBool (key : String) (d : Bool)
    (hkey : (key.isEmpty || key == UNDEFINED) = false) :
    ∃ s, addDefaultSettingBool freshSettings key d = .ok s
      ∧ getSettingBool s key = .ok false
      ∧ getSettingBool (beginRestoreDefault s) key = .ok d := by
  have hdv : ((boolToString d).isNull || qeq (boolToString d) (some UNDEFINED)) = false := by
    cases d <;> decide
  refine ⟨⟨[⟨.BOOL, key, none, boolToString d⟩], false⟩, ?_, ?_, ?_⟩
  · simp [addDefaultSettingBool, _q_addDefaultSetting, hkey, hdv, addDefaultSettingLoop,
      freshSettings]
  · simp only [getSettingBool, _q_getSetting, hkey, Bool.false_eq_true, if_false,
      getSettingLoop, beq_self_eq_true, if_true, bne_self_eq_false]
    rfl
  · cases d <;>
      (simp only [getSettingBool, _q_getSetting, beginRestoreDefault, hkey,
        Bool.false_eq_true, if_false, getSettingLoop, beq_self_eq_true, if_true,
        bne_self_eq_false]; rfl)

/-- Witness for the amended C1 at key `"Enabled"`, default `true`. -/
theorem C1_amended_register_then_getBool_witness :
    ∃ s, addDefaultSettingBool freshSettings "Enabled" true = .ok s
      ∧ getSettingBool s "Enabled" = .ok false
      ∧ getSettingBool (beginRestoreDefault s) "Enabled" = .ok true :=
  C1_amended_register_then_getBool "Enabled" true (by decide)

/-- C5: entering preview-defaults mode mutates no stored item; while it is
active every scalar read of a registered key (of the registered type) returns
that key's stored default whatever current values prior sets produced; and
after leaving the mode the read returns the stored current value again. -/
theorem C5_preview_defaults_frame (s : AbstractSettings) (key : String) (T : KeyType)
    (item : SettingsItem)
    (hkey : (key.isEmpty || key == UNDEFINED) = false)
    (hfind : s.m_items.find? (fun it => it.key == key) = some item)
    (htype : item.keyType = T) :
    (beginRestoreDefault s).m_items = s.m_items
    ∧ (endRestoreDefault s).m_items = s.m_items
    ∧ _q_getSetting (beginRestoreDefault s) key T = .ok item.defaultValue
    ∧ _q_getSetting (endRestoreDefault s) key T = .ok item.value := by
  refine ⟨rfl, rfl, ?_, ?_⟩
  · simp [_q_getSetting, hkey, beginRestoreDefault, getSettingLoop_eq_find, hfind, htype]
  · simp [_q_getSetting, hkey, endRestoreDefault, getSettingLoop_eq_find, hfind, htype]

/-- Witness for C5 on a one-item registry whose current value (`"<TRUE>"`,
i.e. `true`) differs from its default (`"<FALSE>"`, i.e. `false`). -/
theorem C5_preview_defaults_frame_witness :
    (beginRestoreDefault regKTrue).m_items = [itemKTrue]
    ∧ (endRestoreDefault regKTrue).m_items = [itemKTrue]
    ∧ _q_getSetting (beginRestoreDefault regKTrue) "k" .BOOL = .ok (some "<FALSE>")
    ∧ _q_getSetting (endRestoreDefault regKTrue) "k" .BOOL = .ok (some "<TRUE>") :=
  C5_preview_defaults_frame regKTrue "k" .BOOL itemKTrue (by decide) (by decide) rfl

/-- C4: a scalar set on a registered key of matching type is a no-op emitting
no `changed` notification when the serialized new value equals the stored
current value, and otherwise updates exactly that item's current value and
emits exactly one `changed` notification, after which a non-preview read of
the key returns the new value. -/
theorem C4_set_notifies_iff_value_changes (s : AbstractSettings) (key : String)
    (value : QStr) (T : KeyType) (item : SettingsItem)
    (hkey : (key.isEmpty || key == UNDEFINED) = false)
    (hval : (value.isNull || qeq value (some UNDEFINED)) = false)
    (hfind : s.m_items.find? (fun it => it.key == key) = some item)
    (htype : item.keyType = T) :
    (qeq item.value value = true → _q_setSetting s key value T = .ok (s, 0))
    ∧ (qeq item.value value = false →
        _q_setSetting s key value T =
          .ok ({ s with m_items := setFirst key value s.m_items }, 1)
        ∧ (s.m_default = false →
            _q_getSetting { s with m_items := setFirst key value s.m_items } key T
              = .ok value)) := by
  constructor
  · intro h
    simp [_q_setSetting, hkey, hval, setSettingLoop_eq_find, hfind, htype, h]
  · intro h
    constructor
    · simp [_q_setSetting, hkey, hval, setSettingLoop_eq_find, hfind, htype, h]
    · intro hmd
      have hf := setFirst_find_self key value s.m_items item hfind
      simp [_q_getSetting, hkey, hmd, getSettingLoop_eq_find, hf, htype]

/-- Witness for C4 on a one-item registry: setting `"<FALSE>"` over a stored
`"<TRUE>"` updates and emits once; the no-change branch is exercised with the
stored value itself. -/
theorem C4_set_notifies_iff_value_changes_witness :
    (qeq itemKTrue.value (some "<FALSE>") = false →
      _q_setSetting regKTrue "k" (some "<FALSE>") .BOOL
        = .ok ({ regKTrue with m_items := setFirst "k" (some "<FALSE>") regKTrue.m_items }, 1)
      ∧ (regKTrue.m_default = false →
          _q_getSetting { regKTrue with
            m_items := setFirst "k" (some "<FALSE>") regKTrue.m_items } "k" .BOOL
            = .ok (some "<FALSE>")))
    ∧ (qeq itemKTrue.value (some "<TRUE>") = true →
        _q_setSetting regKTrue "k" (some "<TRUE>") .BOOL = .ok (regKTrue, 0)) :=
  ⟨(C4_set_notifies_iff_value_changes regKTrue "k" (some "<FALSE>") .BOOL itemKTrue
      (by decide) (by decide) rfl rfl).2,
   (C4_set_notifies_iff_value_changes regKTrue "k" (some "<TRUE>") .BOOL itemKTrue
      (by decide) (by decide) rfl rfl).1⟩

lemma addLoop_map_triple (key : String) (defaultValue : QStr) (keyType : KeyType)
    (items : List SettingsItem)
    (h : (items.find? (fun it => it.keyType == keyType && it.key == key)).isSome) :
    (addDefaultSettingLoop key defaultValue keyType items).map
        (fun it => (it.keyType, it.key, it.value))
      = items.map (fun it => (it.keyType, it.key, it.value)) := by
  induction items with
  | nil => simp [List.find?] at h
  | cons a rest ih =>
    by_cases ha : (a.keyType == keyType && a.key == key) = true
    · simp [addDefaultSettingLoop, ha]
    · have hb : (a.keyType == keyType && a.key == key) = false := by
        simpa using ha
      simp only [List.find?, hb] at h
      simp [addDefaultSettingLoop, hb, ih h]

lemma getSettingLoop_congr_triple (key : String) (keyType : KeyType) :
    ∀ items₁ items₂ : List SettingsItem,
      items₁.map (fun it => (it.keyType, it.key, it.value))
        = items₂.map (fun it => (it.keyType, it.key, it.value)) →
      getSettingLoop key keyType false items₁ = getSettingLoop key keyType false items₂ := by
  intro items₁
  induction items₁ with
  | nil =>
    intro items₂ h
    cases items₂ with
    | nil => rfl
    | cons b l₂ => simp at h
  | cons a l₁ ih =>
    intro items₂ h
    cases items₂ with
    | nil => simp at h
    | cons b l₂ =>
      simp only [List.map_cons, List.cons.injEq, Prod.mk.injEq] at h
      obtain ⟨⟨ht, hk, hv⟩, htl⟩ := h
      simp only [getSettingLoop, hk, ht, hv, ih l₂ htl]
      simp

lemma find?_split {α : Type} (p : α → Bool) :
    ∀ (l : List α) (a : α), l.find? p = some a →
      ∃ l₁ l₂, l = l₁ ++ a :: l₂ ∧ ∀ x ∈ l₁, p x = false := by
  intro l
  induction l with
  | nil => intro a h; simp [List.find?] at h
  | cons b rest ih =>
    intro a h
    cases hb : p b with
    | true =>
      simp only [List.find?, hb, Option.some.injEq] at h
      subst h
      exact ⟨[], rest, rfl, by simp⟩
    | false =>
      simp only [List.find?, hb] at h
      obtain ⟨l₁, l₂, hsplit, hl₁⟩ := ih a h
      refine ⟨b :: l₁, l₂, by rw [hsplit]; rfl, ?_⟩
      intro x hx
      rcases List.mem_cons.mp hx with hx | hx
      · rw [hx]; exact hb
      · exact hl₁ x hx

lemma find?_append_first {α : Type} (p : α → Bool) :
    ∀ (l₁ l₂ : List α) (x : α), (∀ y ∈ l₁, p y = false) → p x = true →
      (l₁ ++ x :: l₂).find? p = some x := by
  intro l₁
  induction l₁ with
  | nil => intro l₂ x _ hx; simp [List.find?, hx]
  | cons b l₁ ih =>
    intro l₂ x hl hx
    have hb : p b = false := hl b (by simp)
    simp only [List.cons_append, List.find?, hb]
    exact ih l₂ x (fun y hy => hl y (by simp [hy])) hx

lemma addLoop_split (key : String) (dv : QStr) (T : KeyType) :
    ∀ (l₁ l₂ : List SettingsItem) (item : SettingsItem),
      (∀ x ∈ l₁, (x.key == key) = false) →
      (item.keyType == T) = true → (item.key == key) = true →
      addDefaultSettingLoop key dv T (l₁ ++ item :: l₂)
        = l₁ ++ { item with defaultValue := dv } :: l₂ := by
  intro l₁
  induction l₁ with
  | nil =>
    intro l₂ item _ hT hkey
    simp [addDefaultSettingLoop, hT, hkey]
  | cons b l₁ ih =>
    intro l₂ item hl hT hkey
    have hb : (b.key == key) = false := hl b (by simp)
    simp only [List.cons_append, addDefaultSettingLoop, hb, Bool.and_false,
      Bool.false_eq_true, if_false, List.cons.injEq, true_and]
    exact ih l₂ item (fun y hy => hl y (by simp [hy])) hT hkey

/-- C6: re-registering an already registered key under its registered type `T`
with a new default replaces exactly the stored default of the first matching
item — structurally, the item list is unchanged except that this item's
`defaultValue` becomes the new default (so a preview-mode read now reports the
new default), while its current value and every other item are untouched and
every non-preview read is unchanged — in particular
`setBool(k, true); registerBool(k, false)` leaves `getBool(k) == true`. -/
theorem C6_reregister_preserves_current_value (s : AbstractSettings) (key : String)
    (defaultValue : QStr) (T : KeyType) (item : SettingsItem)
    (hkey : (key.isEmpty || key == UNDEFINED) = false)
    (hdv : (defaultValue.isNull || qeq defaultValue (some UNDEFINED)) = false)
    (hfind : s.m_items.find? (fun it => it.key == key) = some item)
    (htype : item.keyType = T) :
    ∃ l₁ l₂ s', s.m_items = l₁ ++ item :: l₂
      ∧ (∀ x ∈ l₁, (x.key == key) = false)
      ∧ _q_addDefaultSetting s key defaultValue T = .ok s'
      ∧ s'.m_items = l₁ ++ { item with defaultValue := defaultValue } :: l₂
      ∧ s'.m_default = s.m_default
      ∧ s'.m_items.find? (fun it => it.key == key)
          = some { item with defaultValue := defaultValue }
      ∧ _q_getSetting (beginRestoreDefault s') key T = .ok defaultValue
      ∧ (s.m_default = false →
          ∀ k' T', _q_getSetting s' k' T' = _q_getSetting s k' T') := by
  obtain ⟨l₁, l₂, hsplit, hl₁⟩ := find?_split (fun it => it.key == key) s.m_items item hfind
  have hpkey : (item.key == key) = true := by
    have := List.find?_some hfind
    simpa using this
  have hpT : (item.keyType == T) = true := by rw [htype]; simp
  have haddloop : addDefaultSettingLoop key defaultValue T s.m_items
      = l₁ ++ { item with defaultValue := defaultValue } :: l₂ := by
    rw [hsplit]
    exact addLoop_split key defaultValue T l₁ l₂ item hl₁ hpT hpkey
  have hfind' : (addDefaultSettingLoop key defaultValue T s.m_items).find?
      (fun it => it.key == key) = some { item with defaultValue := defaultValue } := by
    rw [haddloop]
    exact find?_append_first _ l₁ l₂ _ hl₁ hpkey
  have htriples : (addDefaultSettingLoop key defaultValue T s.m_items).map
        (fun it => (it.keyType, it.key, it.value))
      = s.m_items.map (fun it => (it.keyType, it.key, it.value)) := by
    rw [haddloop, hsplit]
    simp
  refine ⟨l₁, l₂, { s with m_items := addDefaultSettingLoop key defaultValue T s.m_items },
    hsplit, hl₁, ?_, haddloop, rfl, hfind', ?_, ?_⟩
  · simp [_q_addDefaultSetting, hkey, hdv]
  · rw [_q_getSetting, if_neg (by rw [hkey]; simp), beginRestoreDefault,
      getSettingLoop_eq_find]
    show (match (addDefaultSettingLoop key defaultValue T s.m_items).find?
        (fun it => it.key == key) with
      | none => Except.error SettingsError.MissingKeyException
      | some it =>
        if it.keyType != T then Except.error SettingsError.WrongTypeException
        else Except.ok (if true then it.defaultValue else it.value)) = Except.ok defaultValue
    rw [hfind']
    simp [htype]
  · intro hmd k' T'
    unfold _q_getSetting
    by_cases hc : (k'.isEmpty || k' == UNDEFINED) = true
    · simp [hc]
    · have hc' : (k'.isEmpty || k' == UNDEFINED) = false := by simpa using hc
      simp only [hc', Bool.false_eq_true, if_false]
      show getSettingLoop k' T' s.m_default _ = getSettingLoop k' T' s.m_default _
      rw [hmd]
      exact getSettingLoop_congr_triple k' T' _ _ htriples

/-- Witness for C6, applied twice: on `regKTrue` (the registry after
`registerBool("k", false); setBool("k", true)`, re-registered with default
`false`, the claim's literal scenario: `getBool("k")` stays `true`), and on
`regKFresh` (old default `"<TRUE>"`, re-registered with default `"<FALSE>"`,
showing the stored default really is replaced: the preview read reports
`"<FALSE>"`). -/
theorem C6_reregister_preserves_current_value_witness :
    (∃ l₁ l₂ s', regKTrue.m_items = l₁ ++ itemKTrue :: l₂
      ∧ (∀ x ∈ l₁, (x.key == "k") = false)
      ∧ _q_addDefaultSetting regKTrue "k" (some "<FALSE>") .BOOL = .ok s'
      ∧ s'.m_items = l₁ ++ { itemKTrue with defaultValue := some "<FALSE>" } :: l₂
      ∧ s'.m_default = regKTrue.m_default
      ∧ s'.m_items.find? (fun it => it.key == "k")
          = some { itemKTrue with defaultValue := some "<FALSE>" }
      ∧ _q_getSetting (beginRestoreDefault s') "k" .BOOL = .ok (some "<FALSE>")
      ∧ (regKTrue.m_default = false →
          ∀ k' T', _q_getSetting s' k' T' = _q_getSetting regKTrue k' T'))
    ∧ (∃ l₁ l₂ s', regKFresh.m_items = l₁ ++ itemKFresh :: l₂
      ∧ (∀ x ∈ l₁, (x.key == "k") = false)
      ∧ _q_addDefaultSetting regKFresh "k" (some "<FALSE>") .BOOL = .ok s'
      ∧ s'.m_items = l₁ ++ { itemKFresh with defaultValue := some "<FALSE>" } :: l₂
      ∧ s'.m_default = regKFresh.m_default
      ∧ s'.m_items.find? (fun it => it.key == "k")
          = some { itemKFresh with defaultValue := some "<FALSE>" }
      ∧ _q_getSetting (beginRestoreDefault s') "k" .BOOL = .ok (some "<FALSE>")
      ∧ (regKFresh.m_default = false →
          ∀ k' T', _q_getSetting s' k' T' = _q_getSetting regKFresh k' T')) :=
  ⟨C6_reregister_preserves_current_value regKTrue "k" (some "<FALSE>") .BOOL itemKTrue
      (by decide) (by decide) rfl rfl,
   C6_reregister_preserves_current_value regKFresh "k" (some "<FALSE>") .BOOL itemKFresh
      (by decide) (by decide) rfl rfl⟩

lemma legal_value_parts (dv : QStr)
    (hdv : (dv.isNull || qeq dv (some UNDEFINED)) = false) :
    dv.isNull = false ∧ dv.content ≠ UNDEFINED := by
  rcases Bool.or_eq_false_iff.mp hdv with ⟨h1, h2⟩
  refine ⟨h1, ?_⟩
  intro hc
  rw [qeq, hc] at h2
  simp [QStr.content] at h2

lemma addLoop_ok (key : String) (dv : QStr) (kt : KeyType)
    (hdv : (dv.isNull || qeq dv (some UNDEFINED)) = false) :
    ∀ items : List SettingsItem, (∀ it ∈ items, ItemOk it) →
      ∀ it ∈ addDefaultSettingLoop key dv kt items, ItemOk it := by
  obtain ⟨hdv1, hdv2⟩ := legal_value_parts dv hdv
  intro items
  induction items with
  | nil =>
    intro _ it hit
    simp only [addDefaultSettingLoop, List.mem_singleton] at hit
    rw [hit]
    refine ⟨hdv1, hdv2, ?_⟩
    show (QStr.content none) ≠ UNDEFINED
    decide
  | cons a rest ih =>
    intro hitems it hit
    cases hab : (a.keyType == kt && a.key == key) with
    | true =>
      simp [addDefaultSettingLoop, hab] at hit
      rcases hit with hit | hit
      · rw [hit]
        exact ⟨hdv1, hdv2, (hitems a (by simp)).2.2⟩
      · exact hitems it (by simp [hit])
    | false =>
      simp [addDefaultSettingLoop, hab] at hit
      rcases hit with hit | hit
      · rw [hit]; exact hitems a (by simp)
      · exact ih (fun x hx => hitems x (by simp [hx])) it hit

lemma setFirst_ok (key : String) (v : QStr) (hv : v.content ≠ UNDEFINED) :
    ∀ items : List SettingsItem, (∀ it ∈ items, ItemOk it) →
      ∀ it ∈ setFirst key v items, ItemOk it := by
  intro items
  induction items with
  | nil => intro _ it hit; simp [setFirst] at hit
  | cons a rest ih =>
    intro hitems it hit
    cases hab : (a.key == key) with
    | true =>
      simp [setFirst, hab] at hit
      rcases hit with hit | hit
      · rw [hit]
        exact ⟨(hitems a (by simp)).1, (hitems a (by simp)).2.1, hv⟩
      · exact hitems it (by simp [hit])
    | false =>
      simp [setFirst, hab] at hit
      rcases hit with hit | hit
      · rw [hit]; exact hitems a (by simp)
      · exact ih (fun x hx => hitems x (by simp [hx])) it hit

lemma setLoop_result (key : String) (v : QStr) (kt : KeyType)
    (items items' : List SettingsItem) (n : Nat)
    (h : setSettingLoop key v kt items = .ok (items', n)) :
    items' = setFirst key v items ∨ items' = items := by
  rw [setSettingLoop_eq_find] at h
  cases hf : items.find? (fun it => it.key == key) with
  | none => rw [hf] at h; simp at h
  | some item =>
    rw [hf] at h
    by_cases ht : (item.keyType != kt) = true
    · simp [ht] at h
    · have ht' : (item.keyType != kt) = false := by simpa using ht
      by_cases hv : (!qeq item.value v) = true
      · simp only [ht', Bool.false_eq_true, if_false, hv, if_true,
          Except.ok.injEq, Prod.mk.injEq] at h
        exact Or.inl h.1.symm
      · have hv' : (!qeq item.value v) = false := by simpa using hv
        simp only [ht', Bool.false_eq_true, if_false, hv',
          Except.ok.injEq, Prod.mk.injEq] at h
        exact Or.inr h.1.symm

lemma addDefault_ok_shape (s : AbstractSettings) (key : String) (dv : QStr)
    (kt : KeyType) (s' : AbstractSettings)
    (h : _q_addDefaultSetting s key dv kt = .ok s') :
    (dv.isNull || qeq dv (some UNDEFINED)) = false
    ∧ s' = { s with m_items := addDefaultSettingLoop key dv kt s.m_items } := by
  simp only [_q_addDefaultSetting] at h
  split at h
  · simp at h
  · split at h
    next hdv => simp at h
    next hdv =>
      cases h
      exact ⟨by simpa using hdv, rfl⟩

lemma setSetting_ok_shape (s : AbstractSettings) (key : String) (v : QStr)
    (kt : KeyType) (s' : AbstractSettings) (n : Nat)
    (h : _q_setSetting s key v kt = .ok (s', n)) :
    (v.isNull || qeq v (some UNDEFINED)) = false
    ∧ s'.m_default = s.m_default
    ∧ setSettingLoop key v kt s.m_items = .ok (s'.m_items, n) := by
  simp only [_q_setSetting] at h
  split at h
  · simp at h
  · split at h
    next hv => simp at h
    next hv =>
      cases hl : setSettingLoop key v kt s.m_items with
      | error e => rw [hl] at h; simp at h
      | ok r =>
        rw [hl] at h
        cases r with
        | mk items m =>
          simp only [Except.ok.injEq, Prod.mk.injEq] at h
          obtain ⟨h1, h2⟩ := h
          subst h2
          subst h1
          exact ⟨by simpa using hv, rfl, rfl⟩

lemma setSetting_preserves_ok (s : AbstractSettings) (key : String) (v : QStr)
    (kt : KeyType) (s' : AbstractSettings) (n : Nat)
    (h : _q_setSetting s key v kt = .ok (s', n))
    (hs : ∀ it ∈ s.m_items, ItemOk it) : ∀ it ∈ s'.m_items, ItemOk it := by
  obtain ⟨hv, _, hloop⟩ := setSetting_ok_shape s key v kt s' n h
  rcases setLoop_result key v kt s.m_items s'.m_items n hloop with hr | hr
  · rw [hr]
    exact setFirst_ok key v (legal_value_parts v hv).2 s.m_items hs
  · rw [hr]; exact hs

lemma readItem_ok (st : Store) (item : SettingsItem) (h : ItemOk item) :
    ItemOk (readItem st item) := by
  unfold readItem
  refine ⟨h.1, h.2.1, ?_⟩
  by_cases hc : (!qeq (storeValue st (uniqueRegisterKey item) (some UNDEFINED))
      (some UNDEFINED)) = true
  · simp only [hc, if_true]
    intro habs
    rw [Bool.not_eq_eq_eq_not, Bool.not_true, qeq, habs] at hc
    simp [QStr.content] at hc
  · have hc' : (!qeq (storeValue st (uniqueRegisterKey item) (some UNDEFINED))
        (some UNDEFINED)) = false := by simpa using hc
    simp only [hc', Bool.false_eq_true, if_false]
    exact h.2.1

lemma addListAux_ok (key : String) :
    ∀ (vs : List QStr) (s : AbstractSettings) (idx : Nat),
      (∀ it ∈ s.m_items, ItemOk it) →
      ∀ it ∈ (addDefaultSettingStringListAux s key idx vs).1.m_items, ItemOk it := by
  intro vs
  induction vs with
  | nil => intro s idx hs; simpa [addDefaultSettingStringListAux] using hs
  | cons v rest ih =>
    intro s idx hs
    simp only [addDefaultSettingStringListAux]
    cases h : addDefaultSettingString s (subKey key idx) v with
    | error e => simpa using hs
    | ok s' =>
      obtain ⟨hdv, hsh⟩ := addDefault_ok_shape s (subKey key idx) v .STRING s' h
      refine ih s' (idx + 1) ?_
      rw [hsh]
      exact addLoop_ok (subKey key idx) v .STRING hdv s.m_items hs

lemma setListAux_ok (key : String) :
    ∀ (vs : List QStr) (s : AbstractSettings) (idx : Nat),
      (∀ it ∈ s.m_items, ItemOk it) →
      ∀ it ∈ (setSettingStringListAux s key idx vs).1.m_items, ItemOk it := by
  intro vs
  induction vs with
  | nil => intro s idx hs; simpa [setSettingStringListAux] using hs
  | cons v rest ih =>
    intro s idx hs
    simp only [setSettingStringListAux]
    cases h : setSettingString s (subKey key idx) v with
    | error e => simpa using hs
    | ok r =>
      exact ih r.1 (idx + 1)
        (setSetting_preserves_ok s (subKey key idx) v .STRING r.1 r.2 h hs)

lemma applyOp_preserves_ok (s : AbstractSettings) (op : SettingsOp)
    (hs : ∀ it ∈ s.m_items, ItemOk it) :
    ∀ it ∈ (applyOp s op).m_items, ItemOk it := by
  cases op with
  | regBool key d =>
    simp only [applyOp]
    cases h : addDefaultSettingBool s key d with
    | error e => exact hs
    | ok s' =>
      obtain ⟨hdv, hsh⟩ := addDefault_ok_shape s key (boolToString d) .BOOL s' h
      rw [hsh]
      exact addLoop_ok key (boolToString d) .BOOL hdv s.m_items hs
  | regInt key d =>
    simp only [applyOp]
    cases h : addDefaultSettingInt s key d with
    | error e => exact hs
    | ok s' =>
      obtain ⟨hdv, hsh⟩ := addDefault_ok_shape s key (intToString d) .INTEGER s' h
      rw [hsh]
      exact addLoop_ok key (intToString d) .INTEGER hdv s.m_items hs
  | regString key d =>
    simp only [applyOp]
    cases h : addDefaultSettingString s key d with
    | error e => exact hs
    | ok s' =>
      obtain ⟨hdv, hsh⟩ := addDefault_ok_shape s key d .STRING s' h
      rw [hsh]
      exact addLoop_ok key d .STRING hdv s.m_items hs
  | regStringList key d =>
    simp only [applyOp, addDefaultSettingStringList]
    exact addListAux_ok key d s 0 hs
  | setBool key v =>
    simp only [applyOp]
    cases h : setSettingBool s key v with
    | error e => exact hs
    | ok r => exact setSetting_preserves_ok s key (boolToString v) .BOOL r.1 r.2 h hs
  | setInt key v =>
    simp only [applyOp]
    cases h : setSettingInt s key v with
    | error e => exact hs
    | ok r => exact setSetting_preserves_ok s key (intToString v) .INTEGER r.1 r.2 h hs
  | setString key v =>
    simp only [applyOp]
    cases h : setSettingString s key v with
    | error e => exact hs
    | ok r => exact setSetting_preserves_ok s key v .STRING r.1 r.2 h hs
  | setStringList key v =>
    simp only [applyOp, setSettingStringList]
    exact setListAux_ok key v s 0 hs
  | getScalar key t => exact hs
  | getList key => exact hs
  | load st =>
    simp only [applyOp, readSettings]
    intro it hit
    simp only [List.mem_map] at hit
    obtain ⟨x, hx, hxe⟩ := hit
    rw [← hxe]
    exact readItem_ok st x (hs x hx)
  | save st => exact hs
  | beginPreview => exact hs
  | endPreview => exact hs

lemma runOps_preserves_ok (ops : List SettingsOp) :
    ∀ s : AbstractSettings, (∀ it ∈ s.m_items, ItemOk it) →
      ∀ it ∈ (runOps s ops).m_items, ItemOk it := by
  induction ops with
  | nil => intro s hs; simpa [runOps] using hs
  | cons op rest ih =>
    intro s hs
    simp only [runOps, List.foldl_cons]
    exact ih (applyOp s op) (applyOp_preserves_ok s op hs)

/-- C2 counterexample: after `registerBool("k", true)` on a fresh registry, the
single entry's current value is the null (absent) string, contradicting the
claimed "never null/absent" invariant for `currentValue`. -/
theorem C2_counterexample :
    (runOps freshSettings [.regBool "k" true]).m_items = [itemKFresh]
    ∧ itemKFresh.value.isNull = true := by
  exact ⟨rfl, rfl⟩

/-- C2 (amended): for every entry reachable by any sequence of API operations
from a fresh registry, the default value is a non-null string different from
the `"<UNDEFINED>"` sentinel, and the current value never has the sentinel as
content; the current value is, however, the null string between registration
and the first set/load of the entry. -/
theorem C2_amended_no_sentinel_invariant (ops : List SettingsOp) (item : SettingsItem)
    (hmem : item ∈ (runOps freshSettings ops).m_items) :
    item.defaultValue.isNull = false
    ∧ item.defaultValue.content ≠ UNDEFINED
    ∧ item.value.content ≠ UNDEFINED :=
  runOps_preserves_ok ops freshSettings (by simp [freshSettings]) item hmem

/-- Witness for the amended C2: the entry registered then set then saved and
reloaded through a store keeps non-sentinel, non-null default and non-sentinel
value. -/
theorem C2_amended_no_sentinel_invariant_witness :
    itemKTrue.defaultValue.isNull = false
    ∧ itemKTrue.defaultValue.content ≠ UNDEFINED
    ∧ itemKTrue.value.content ≠ UNDEFINED :=
  C2_amended_no_sentinel_invariant
    [.regBool "k" false, .setBool "k" true, .save [], .load [("k_bool", some "<TRUE>")]]
    itemKTrue (by decide)

lemma foldl_filter_map {α β : Type} (p : α → Bool) (f : α → β) :
    ∀ (l : List α) (acc : List β),
      l.foldl (fun acc x => if p x then acc ++ [f x] else acc) acc
        = acc ++ (l.filter p).map f := by
  intro l
  induction l with
  | nil => intro acc; simp
  | cons a l ih =>
    intro acc
    cases hp : p a with
    | true => simp [List.foldl_cons, hp, ih]
    | false => simp [List.foldl_cons, hp, ih]

lemma foldl_append_join {α β : Type} (g : α → List β) :
    ∀ (l : List α) (acc : List β),
      l.foldl (fun acc x => acc ++ g x) acc = acc ++ (l.map g).flatten := by
  intro l
  induction l with
  | nil => intro acc; simp
  | cons a l ih => intro acc; simp [List.foldl_cons, ih]

/-- C3 (amended): `getStringList(key)` returns, for each index `i` from `0` to
(number of registered entries − 1) in increasing order, the effective values
(default in preview mode, else current value) of every registered entry whose
key is `key + i`.  Enumeration does not stop at the first missing consecutive
index: a sub-key after a gap is still included whenever its numeric index is
below the total number of registered entries, and indices at or above that
count are never scanned. -/
theorem C3_amended_stringlist_scan (s : AbstractSettings) (key : String) :
    getSettingStringList s key
      = ((List.range s.m_items.length).map (fun i =>
          (s.m_items.filter (fun item => item.key == subKey key i)).map
            (fun item => if s.m_default then item.defaultValue else item.value))).flatten := by
  unfold getSettingStringList
  have hinner : ∀ (acc : List QStr) (i : Nat),
      s.m_items.foldl (fun ret item =>
          if item.key == subKey key i then
            ret ++ [if s.m_default then item.defaultValue else item.value]
          else ret) acc
        = acc ++ (s.m_items.filter (fun item => item.key == subKey key i)).map
            (fun item => if s.m_default then item.defaultValue else item.value) :=
    fun acc i => foldl_filter_map _ _ s.m_items acc
  simp only [hinner]
  exact foldl_append_join _ (List.range s.m_items.length) []

/-- C3 counterexample: with entries registered for keys `"other"` and `"k1"`
(and none for `"k0"`), `getStringList("k")` in preview mode returns the
non-empty `[some "b"]`: the sub-key `"k1"`, which lies after the gap at index
0, is included, whereas stopping at the first missing consecutive index would
return `[]`. -/
theorem C3_counterexample :
    (runOps freshSettings [.regString "other" (some "x"), .regString "k1" (some "b")])
        = regGap
    ∧ getSettingStringList (beginRestoreDefault regGap) "k" = [some "b"]
    ∧ ([some "b"] : List QStr) ≠ [] := by
  exact ⟨rfl, rfl, by simp⟩

lemma storeContains_eq_isSome (name : String) :
    ∀ st : Store, storeContains st name = (storeFind st name).isSome := by
  intro st
  induction st with
  | nil => rfl
  | cons p st ih =>
    cases hp : (p.1 == name) with
    | true => simp [storeContains, storeFind, hp]
    | false => simpa [storeContains, storeFind, hp] using ih

lemma storeContains_false_find (st : Store) (name : String)
    (h : storeContains st name = false) : storeFind st name = none := by
  rw [storeContains_eq_isSome] at h
  cases hf : storeFind st name with
  | none => rfl
  | some v => rw [hf] at h; simp at h

lemma storeFind_setValue_self (name : String) (v : QStr) :
    ∀ st : Store, storeFind (storeSetValue st name v) name = some v := by
  have hmap : ∀ st : Store, storeContains st name = true →
      storeFind (st.map (fun p => if p.1 == name then (p.1, v) else p)) name = some v := by
    intro st
    induction st with
    | nil => intro h; simp [storeContains] at h
    | cons p st ih =>
      intro h
      cases hp : (p.1 == name) with
      | true => simp [storeFind, hp]
      | false =>
        have h' : storeContains st name = true := by
          simpa [storeContains, hp] using h
        simpa [storeFind, hp] using ih h'
  have happ : ∀ st : Store, storeContains st name = false →
      storeFind (st ++ [(name, v)]) name = some v := by
    intro st
    induction st with
    | nil => simp [storeFind]
    | cons p st ih =>
      intro h
      cases hp : (p.1 == name) with
      | true => simp [storeContains, hp] at h
      | false =>
        have h' : storeContains st name = false := by
          simpa [storeContains, hp] using h
        simpa [storeFind, hp] using ih h'
  intro st
  unfold storeSetValue
  cases hc : storeContains st name with
  | true => simpa [hc] using hmap st hc
  | false => simpa [hc] using happ st hc

lemma storeFind_setValue_ne (name name' : String) (v : QStr) (h : name' ≠ name) :
    ∀ st : Store, storeFind (storeSetValue st name v) name' = storeFind st name' := by
  have hnn : (name == name') = false := by simp; exact fun hh => h hh.symm
  have hmap : ∀ st : Store,
      storeFind (st.map (fun p => if p.1 == name then (p.1, v) else p)) name'
        = storeFind st name' := by
    intro st
    induction st with
    | nil => rfl
    | cons p st ih =>
      cases hp : (p.1 == name) with
      | true =>
        have hp' : (p.1 == name') = false := by
          rw [beq_iff_eq] at hp; rw [hp]; exact hnn
        simpa [storeFind, hp, hp'] using ih
      | false =>
        cases hq : (p.1 == name') with
        | true => simp [storeFind, hp, hq]
        | false => simpa [storeFind, hp, hq] using ih
  have happ : ∀ st : Store,
      storeFind (st ++ [(name, v)]) name' = storeFind st name' := by
    intro st
    induction st with
    | nil => simp [storeFind, hnn]
    | cons p st ih =>
      cases hq : (p.1 == name') with
      | true => simp [storeFind, hq]
      | false => simpa [storeFind, hq] using ih
  intro st
  unfold storeSetValue
  cases hc : storeContains st name with
  | true => simpa using hmap st
  | false => simpa using happ st

lemma writeItemStep_find_ne (acc : Store) (item : SettingsItem) (name : String)
    (h : name ≠ uniqueRegisterKey item) :
    storeFind (writeItemStep acc item) name = storeFind acc name := by
  unfold writeItemStep
  by_cases hc : (!qeq item.value item.defaultValue
      || storeContains acc (uniqueRegisterKey item)) = true
  · rw [if_pos hc]
    exact storeFind_setValue_ne (uniqueRegisterKey item) name item.value h acc
  · rw [if_neg hc]

lemma writeFold_find_notin (name : String) :
    ∀ (items : List SettingsItem) (st : Store),
      name ∉ items.map uniqueRegisterKey →
      storeFind (items.foldl writeItemStep st) name = storeFind st name := by
  intro items
  induction items with
  | nil => intro st _; rfl
  | cons item rest ih =>
    intro st hnot
    simp only [List.map_cons, List.mem_cons] at hnot
    push_neg at hnot
    rw [List.foldl_cons, ih (writeItemStep st item) hnot.2,
      writeItemStep_find_ne st item name hnot.1]

/-- The effect of `writeSettings` on the store at a registered item's
namespaced key, assuming the namespaced keys of the registry are pairwise
distinct: the item's current value is written exactly under the source's
condition, and the store is untouched there otherwise. -/
lemma writeSettings_find_mem (s : AbstractSettings) (st : Store)
    (hnodup : (s.m_items.map uniqueRegisterKey).Nodup)
    (item : SettingsItem) (hmem : item ∈ s.m_items) :
    storeFind (writeSettings s st) (uniqueRegisterKey item)
      = if (!qeq item.value item.defaultValue
            || storeContains st (uniqueRegisterKey item)) = true
        then some item.value
        else storeFind st (uniqueRegisterKey item) := by
  obtain ⟨l₁, l₂, hsplit⟩ := List.append_of_mem hmem
  have hmapsplit : s.m_items.map uniqueRegisterKey
      = l₁.map uniqueRegisterKey ++ uniqueRegisterKey item :: l₂.map uniqueRegisterKey := by
    rw [hsplit]; simp
  rw [hmapsplit] at hnodup
  have hmid := List.nodup_middle.mp hnodup
  have hnotmem := (List.nodup_cons.mp hmid).1
  simp only [List.mem_append] at hnotmem
  push_neg at hnotmem
  have hn1 : uniqueRegisterKey item ∉ l₁.map uniqueRegisterKey := hnotmem.1
  have hn2 : uniqueRegisterKey item ∉ l₂.map uniqueRegisterKey := hnotmem.2
  have hfold : writeSettings s st
      = l₂.foldl writeItemStep (writeItemStep (l₁.foldl writeItemStep st) item) := by
    rw [writeSettings, hsplit, List.foldl_append, List.foldl_cons]
  have hfind1 : storeFind (l₁.foldl writeItemStep st) (uniqueRegisterKey item)
      = storeFind st (uniqueRegisterKey item) := writeFold_find_notin _ l₁ st hn1
  have hcont1 : storeContains (l₁.foldl writeItemStep st) (uniqueRegisterKey item)
      = storeContains st (uniqueRegisterKey item) := by
    rw [storeContains_eq_isSome, storeContains_eq_isSome, hfind1]
  rw [hfold, writeFold_find_notin _ l₂ _ hn2]
  simp only [writeItemStep]
  rw [hcont1]
  by_cases hc : (!qeq item.value item.defaultValue
      || storeContains st (uniqueRegisterKey item)) = true
  · rw [if_pos hc, if_pos hc]
    exact storeFind_setValue_self (uniqueRegisterKey item) item.value _
  · rw [if_neg hc, if_neg hc]
    exact hfind1

/-- C7: assuming the namespaced store keys of the registered entries are
pairwise distinct (the normal schema shape), `save()` writes an entry's
current value to the external store iff the current value differs from the
default (Qt content comparison) or the store already contained the entry's
namespaced key; an entry whose value equals its default and whose key was
never stored stays absent from the store. -/
theorem C7_save_writes_iff_changed_or_stored (s : AbstractSettings) (st : Store)
    (hnodup : (s.m_items.map uniqueRegisterKey).Nodup)
    (item : SettingsItem) (hmem : item ∈ s.m_items) :
    ((!qeq item.value item.defaultValue
        || storeContains st (uniqueRegisterKey item)) = true →
      storeFind (writeSettings s st) (uniqueRegisterKey item) = some item.value)
    ∧ (qeq item.value item.defaultValue = true →
        storeContains st (uniqueRegisterKey item) = false →
        storeFind (writeSettings s st) (uniqueRegisterKey item) = none) := by
  have hmain := writeSettings_find_mem s st hnodup item hmem
  constructor
  · intro hc
    rw [hmain, if_pos hc]
  · intro hq hc
    have hc' : (!qeq item.value item.defaultValue
        || storeContains st (uniqueRegisterKey item)) = false := by
      rw [hq, hc]; rfl
    rw [hmain, if_neg (by rw [hc']; simp)]
    exact storeContains_false_find st _ hc

/-- Witness for C7 on `regKTrue` over an empty store: the single entry's value
differs from its default, so it is written; the second branch is instantiated
on `regKFresh`, whose value (null, content `""`) differs from its default as
well, so the interesting written case is exercised and the not-written branch
is exhibited on a one-entry registry whose value was set back to its
default. -/
theorem C7_save_writes_iff_changed_or_stored_witness :
    (((!qeq itemKTrue.value itemKTrue.defaultValue
        || storeContains [] (uniqueRegisterKey itemKTrue)) = true →
      storeFind (writeSettings regKTrue []) (uniqueRegisterKey itemKTrue)
        = some itemKTrue.value)
    ∧ (qeq itemKTrue.value itemKTrue.defaultValue = true →
        storeContains [] (uniqueRegisterKey itemKTrue) = false →
        storeFind (writeSettings regKTrue []) (uniqueRegisterKey itemKTrue) = none))
    ∧ (((!qeq itemKDefault.value itemKDefault.defaultValue
        || storeContains [] (uniqueRegisterKey itemKDefault)) = true →
      storeFind (writeSettings regKDefault []) (uniqueRegisterKey itemKDefault)
        = some itemKDefault.value)
    ∧ (qeq itemKDefault.value itemKDefault.defaultValue = true →
        storeContains [] (uniqueRegisterKey itemKDefault) = false →
        storeFind (writeSettings regKDefault []) (uniqueRegisterKey itemKDefault) = none)) :=
  ⟨C7_save_writes_iff_changed_or_stored regKTrue [] (by decide) itemKTrue (by decide),
   C7_save_writes_iff_changed_or_stored regKDefault [] (by decide) itemKDefault (by decide)⟩

lemma addLoop_no_match (key : String) (dv : QStr) (kt : KeyType) :
    ∀ items : List SettingsItem,
      (∀ it ∈ items, ¬(it.keyType = kt ∧ it.key = key)) →
      addDefaultSettingLoop key dv kt items
        = items ++ [{ keyType := kt, key := key, value := none, defaultValue := dv }] := by
  intro items
  induction items with
  | nil => intro _; rfl
  | cons a rest ih =>
    intro h
    have ha : (a.keyType == kt && a.key == key) = false := by
      have := h a (by simp)
      cases hk : (a.keyType == kt) with
      | false => simp [hk]
      | true =>
        cases hk2 : (a.key == key) with
        | false => simp [hk, hk2]
        | true =>
          exact absurd ⟨by rwa [beq_iff_eq] at hk, by rwa [beq_iff_eq] at hk2⟩ this
    simp only [addDefaultSettingLoop, ha, Bool.false_eq_true, if_false, List.cons_append,
      List.cons.injEq, true_and]
    exact ih (fun it hit => h it (by simp [hit]))

lemma registerSchema_go :
    ∀ (items : List SettingsItem) (acc : List SettingsItem),
      (∀ it ∈ items, (it.key.isEmpty || it.key == UNDEFINED) = false
          ∧ (it.defaultValue.isNull || qeq it.defaultValue (some UNDEFINED)) = false) →
      (items.map (fun it => (it.key, it.keyType))).Nodup →
      (∀ it ∈ items, ∀ a ∈ acc, ¬(a.keyType = it.keyType ∧ a.key = it.key)) →
      registerSchema { m_items := acc, m_default := false }
          (items.map (fun it => (it.key, it.defaultValue, it.keyType)))
        = ({ m_items := acc ++ items.map (fun it => { it with value := none }),
             m_default := false }, none) := by
  intro items
  induction items with
  | nil => intro acc _ _ _; simp [registerSchema]
  | cons it rest ih =>
    intro acc hleg hnodup hdisj
    have hlegit := hleg it (by simp)
    simp only [List.map_cons, registerSchema, _q_addDefaultSetting, hlegit.1,
      Bool.false_eq_true, if_false, hlegit.2]
    rw [addLoop_no_match it.key it.defaultValue it.keyType acc
      (fun a ha => hdisj it (by simp) a ha)]
    have hdisj' : ∀ x ∈ rest,
        ∀ a ∈ acc ++ [(⟨it.keyType, it.key, none, it.defaultValue⟩ : SettingsItem)],
          ¬(a.keyType = x.keyType ∧ a.key = x.key) := by
      intro x hx a ha
      rcases List.mem_append.mp ha with ha | ha
      · exact hdisj x (by simp [hx]) a ha
      · simp only [List.mem_singleton] at ha
        rw [ha]
        intro hc
        obtain ⟨h1, h2⟩ := hc
        have hpair : (it.key, it.keyType) ∈ rest.map (fun y => (y.key, y.keyType)) :=
          List.mem_map.mpr ⟨x, hx, by rw [h1, h2]⟩
        have := (List.nodup_cons.mp hnodup).1
        exact this hpair
    have := ih (acc ++ [(⟨it.keyType, it.key, none, it.defaultValue⟩ : SettingsItem)])
      (fun x hx => hleg x (by simp [hx])) (List.nodup_cons.mp hnodup).2 hdisj'
    rw [this]
    simp

/-- Registering the schema of `s` on a fresh registry reproduces the items of
`s` with null current values, provided the (key, type) pairs are distinct and
every key and default passes the registration checks. -/
lemma registerSchema_freshLike (s : AbstractSettings)
    (hleg : ∀ it ∈ s.m_items, (it.key.isEmpty || it.key == UNDEFINED) = false
        ∧ (it.defaultValue.isNull || qeq it.defaultValue (some UNDEFINED)) = false)
    (hpairs : (s.m_items.map (fun it => (it.key, it.keyType))).Nodup) :
    registerSchema freshSettings (schemaOf s) = (freshLike s, none) := by
  have := registerSchema_go s.m_items [] hleg hpairs (by simp)
  simpa [freshSettings, schemaOf, freshLike] using this

lemma pairs_nodup_of_names_nodup (items : List SettingsItem)
    (h : (items.map uniqueRegisterKey).Nodup) :
    (items.map (fun it => (it.key, it.keyType))).Nodup := by
  have hfactor : items.map uniqueRegisterKey
      = (items.map (fun it => (it.key, it.keyType))).map (fun p =>
          match p.2 with
          | KeyType.BOOL => p.1 ++ "_bool"
          | KeyType.INTEGER => p.1 ++ "_int"
          | KeyType.STRING => p.1) := by
    rw [List.map_map]
    apply List.map_congr_left
    intro it _
    cases hkt : it.keyType <;> simp [uniqueRegisterKey, Function.comp, hkt]
  rw [hfactor] at h
  exact h.of_map

/-- C8: save on `s`, then register the same schema on a fresh registry and
load from the resulting store: every current value is reproduced exactly (as
Qt string content), and an entry whose value equals its default and whose
namespaced key was never stored is absent from the store after the save, so
its reload comes from the registered default.  Hypotheses: the entries'
namespaced store keys are pairwise distinct, all keys and defaults pass the
registration checks, and no current value has the sentinel as content (the
reachable-state invariant of C2). -/
theorem C8_save_load_roundtrip (s : AbstractSettings) (st : Store)
    (hnodup : (s.m_items.map uniqueRegisterKey).Nodup)
    (hleg : ∀ it ∈ s.m_items, (it.key.isEmpty || it.key == UNDEFINED) = false
        ∧ (it.defaultValue.isNull || qeq it.defaultValue (some UNDEFINED)) = false)
    (hval : ∀ it ∈ s.m_items, it.value.content ≠ UNDEFINED) :
    ∃ t, registerSchema freshSettings (schemaOf s) = (t, none)
      ∧ ((readSettings t (writeSettings s st)).1).m_items.map (fun it => it.value.content)
          = s.m_items.map (fun it => it.value.content)
      ∧ (∀ it ∈ s.m_items, qeq it.value it.defaultValue = true →
          storeContains st (uniqueRegisterKey it) = false →
          storeFind (writeSettings s st) (uniqueRegisterKey it) = none) := by
  refine ⟨freshLike s,
    registerSchema_freshLike s hleg (pairs_nodup_of_names_nodup s.m_items hnodup), ?_, ?_⟩
  · simp only [readSettings, freshLike, List.map_map]
    apply List.map_congr_left
    intro it hit
    have hurk : uniqueRegisterKey { it with value := none } = uniqueRegisterKey it := by
      cases hkt : it.keyType <;> simp [uniqueRegisterKey, hkt]
    simp only [Function.comp, readItem, hurk]
    have hmain := writeSettings_find_mem s st hnodup it hit
    by_cases hc : (!qeq it.value it.defaultValue
        || storeContains st (uniqueRegisterKey it)) = true
    · rw [if_pos hc] at hmain
      have hsv : storeValue (writeSettings s st) (uniqueRegisterKey it) (some UNDEFINED)
          = it.value := by
        rw [storeValue, hmain]; rfl
      have hnq : qeq it.value (some UNDEFINED) = false := by
        rw [qeq]
        simp only [QStr.content]
        exact beq_eq_false_iff_ne.mpr (hval it hit)
      rw [hsv, hnq]
      rfl
    · have hc' : (!qeq it.value it.defaultValue
          || storeContains st (uniqueRegisterKey it)) = false := by simpa using hc
      rcases Bool.or_eq_false_iff.mp hc' with ⟨h1, h2⟩
      have hq : qeq it.value it.defaultValue = true := by simpa using h1
      rw [if_neg (by rw [hc']; simp)] at hmain
      rw [storeContains_false_find st (uniqueRegisterKey it) h2] at hmain
      have hsv : storeValue (writeSettings s st) (uniqueRegisterKey it) (some UNDEFINED)
          = some UNDEFINED := by
        rw [storeValue, hmain]; rfl
      rw [hsv]
      have hqu : qeq (some UNDEFINED) (some UNDEFINED) = true := by simp [qeq]
      rw [hqu]
      simp only [Bool.not_true, Bool.false_eq_true, if_false]
      rw [qeq] at hq
      exact (beq_iff_eq.mp hq).symm
  · intro it hit hq hcont
    have hmain := writeSettings_find_mem s st hnodup it hit
    have hc' : (!qeq it.value it.defaultValue
        || storeContains st (uniqueRegisterKey it)) = false := by
      rw [hq, hcont]; rfl
    rw [if_neg (by rw [hc']; simp)] at hmain
    rw [hmain]
    exact storeContains_false_find st _ hcont

/-- Witness for C8 on a two-entry registry (one value differing from its
default, one equal to its never-stored default) over the empty store. -/
theorem C8_save_load_roundtrip_witness :
    ∃ t, registerSchema freshSettings (schemaOf regRoundtrip) = (t, none)
      ∧ ((readSettings t (writeSettings regRoundtrip [])).1).m_items.map
            (fun it => it.value.content)
          = regRoundtrip.m_items.map (fun it => it.value.content)
      ∧ (∀ it ∈ regRoundtrip.m_items, qeq it.value it.defaultValue = true →
          storeContains [] (uniqueRegisterKey it) = false →
          storeFind (writeSettings regRoundtrip []) (uniqueRegisterKey it) = none) :=
  C8_save_load_roundtrip regRoundtrip [] (by decide) (by decide) (by decide)

/-- Behaviour of the `setSettingStringList` loop when the sub-keys at offsets
`b, b+1, …, b+i-1` are registered string entries and the sub-key at offset
`b+i` is not registered: the loop throws `MissingKeyException` at offset
`b+i`, having already updated (with no rollback) the earlier sub-keys, and the
entries at all other keys are untouched. -/
lemma setListAux_stops (key : String) :
    ∀ (i : Nat) (vs : List QStr) (b : Nat) (s : AbstractSettings),
      i < vs.length →
      (∀ j, j ≤ i → ((subKey key (b + j)).isEmpty || subKey key (b + j) == UNDEFINED) = false) →
      (∀ j, j ≤ i →
        ((vs.getD j none).isNull || qeq (vs.getD j none) (some UNDEFINED)) = false) →
      (∀ j j', j ≤ i → j' ≤ i → j ≠ j' → subKey key (b + j) ≠ subKey key (b + j')) →
      (∀ j, j < i → ∃ item,
          s.m_items.find? (fun x => x.key == subKey key (b + j)) = some item
          ∧ item.keyType = KeyType.STRING) →
      s.m_items.find? (fun x => x.key == subKey key (b + i)) = none →
      (setSettingStringListAux s key b vs).2.2 = some .MissingKeyException
      ∧ (setSettingStringListAux s key b vs).1.m_default = s.m_default
      ∧ (∀ k', (∀ j, j < i → k' ≠ subKey key (b + j)) →
          (setSettingStringListAux s key b vs).1.m_items.find? (fun x => x.key == k')
            = s.m_items.find? (fun x => x.key == k'))
      ∧ (∀ j, j < i → ∃ item,
          (setSettingStringListAux s key b vs).1.m_items.find?
              (fun x => x.key == subKey key (b + j)) = some item
          ∧ item.keyType = KeyType.STRING
          ∧ qeq item.value (vs.getD j none) = true) := by
  intro i
  induction i with
  | zero =>
    intro vs b s hlen hkeys hvals _ _ hmiss
    cases vs with
    | nil => simp at hlen
    | cons v rest =>
      have hkey0 := hkeys 0 (Nat.le_refl 0)
      have hval0 := hvals 0 (Nat.le_refl 0)
      rw [List.getD_cons_zero] at hval0
      have hset : setSettingString s (subKey key (b + 0)) v = .error .MissingKeyException := by
        rw [setSettingString, _q_setSetting, if_neg (by rw [hkey0]; simp),
          if_neg (by rw [hval0]; simp), setSettingLoop_eq_find, hmiss]
      rw [Nat.add_zero] at hset
      refine ⟨?_, ?_, ?_, ?_⟩
      · simp [setSettingStringListAux, hset]
      · simp [setSettingStringListAux, hset]
      · intro k' _
        simp [setSettingStringListAux, hset]
      · intro j hj
        exact absurd hj (Nat.not_lt_zero j)
  | succ i' ih =>
    intro vs b s hlen hkeys hvals hdist hreg hmiss
    cases vs with
    | nil => simp at hlen
    | cons v rest =>
      obtain ⟨item₀, hfind0, htype0⟩ := hreg 0 (Nat.succ_pos i')
      rw [Nat.add_zero] at hfind0
      have hkey0 := hkeys 0 (Nat.zero_le _)
      rw [Nat.add_zero] at hkey0
      have hval0 := hvals 0 (Nat.zero_le _)
      rw [List.getD_cons_zero] at hval0
      have htypene : (item₀.keyType != KeyType.STRING) = false := by
        rw [htype0]; simp
      -- the head set call succeeds, with or without an update
      have hstep : ∃ s₁ n, setSettingString s (subKey key b) v = .ok (s₁, n)
          ∧ s₁.m_default = s.m_default
          ∧ (∀ k', k' ≠ subKey key b →
              s₁.m_items.find? (fun x => x.key == k')
                = s.m_items.find? (fun x => x.key == k'))
          ∧ (∃ item, s₁.m_items.find? (fun x => x.key == subKey key b) = some item
              ∧ item.keyType = KeyType.STRING ∧ qeq item.value v = true) := by
        cases hvq : qeq item₀.value v with
        | true =>
          refine ⟨s, 0, ?_, rfl, fun k' _ => rfl, item₀, hfind0, htype0, hvq⟩
          rw [setSettingString, _q_setSetting, if_neg (by rw [hkey0]; simp),
            if_neg (by rw [hval0]; simp), setSettingLoop_eq_find, hfind0]
          simp [htypene, hvq]
        | false =>
          refine ⟨{ s with m_items := setFirst (subKey key b) v s.m_items }, 1, ?_, rfl,
            ?_, ?_⟩
          · rw [setSettingString, _q_setSetting, if_neg (by rw [hkey0]; simp),
              if_neg (by rw [hval0]; simp), setSettingLoop_eq_find, hfind0]
            simp [htypene, hvq]
          · intro k' hk'
            exact setFirst_find_ne (subKey key b) k' v s.m_items hk'
          · refine ⟨{ item₀ with value := v },
              setFirst_find_self (subKey key b) v s.m_items item₀ hfind0, htype0, ?_⟩
            simp [qeq]
      obtain ⟨s₁, n, hset, hdef1, hframe1, item₁, hfind1, htype1, hqeq1⟩ := hstep
      -- transfer the hypotheses to the state after the head update
      have hshift : ∀ j, b + 1 + j = b + (j + 1) := by intro j; omega
      have hkeys' : ∀ j, j ≤ i' →
          ((subKey key (b + 1 + j)).isEmpty || subKey key (b + 1 + j) == UNDEFINED)
            = false := by
        intro j hj
        rw [hshift j]
        exact hkeys (j + 1) (Nat.succ_le_succ hj)
      have hvals' : ∀ j, j ≤ i' →
          ((rest.getD j none).isNull || qeq (rest.getD j none) (some UNDEFINED)) = false := by
        intro j hj
        have := hvals (j + 1) (Nat.succ_le_succ hj)
        rwa [List.getD_cons_succ] at this
      have hdist' : ∀ j j', j ≤ i' → j' ≤ i' → j ≠ j' →
          subKey key (b + 1 + j) ≠ subKey key (b + 1 + j') := by
        intro j j' hj hj' hne
        rw [hshift j, hshift j']
        exact hdist (j + 1) (j' + 1) (Nat.succ_le_succ hj) (Nat.succ_le_succ hj')
          (fun hh => hne (Nat.succ_injective hh))
      have hreg' : ∀ j, j < i' → ∃ item,
          s₁.m_items.find? (fun x => x.key == subKey key (b + 1 + j)) = some item
          ∧ item.keyType = KeyType.STRING := by
        intro j hj
        obtain ⟨item, hfind, htype⟩ := hreg (j + 1) (Nat.succ_lt_succ hj)
        refine ⟨item, ?_, htype⟩
        have hne : subKey key (b + (j + 1)) ≠ subKey key b := by
          have := hdist (j + 1) 0 (Nat.succ_le_succ (Nat.le_of_lt hj)) (Nat.zero_le _)
            (Nat.succ_ne_zero j)
          rwa [Nat.add_zero] at this
        rw [hshift j, hframe1 _ hne]
        exact hfind
      have hmiss' : s₁.m_items.find? (fun x => x.key == subKey key (b + 1 + i')) = none := by
        have hne : subKey key (b + (i' + 1)) ≠ subKey key b := by
          have := hdist (i' + 1) 0 (Nat.le_refl _) (Nat.zero_le _) (Nat.succ_ne_zero i')
          rwa [Nat.add_zero] at this
        rw [hshift i', hframe1 _ hne]
        exact hmiss
      have hlen' : i' < rest.length := Nat.lt_of_succ_lt_succ (by simpa using hlen)
      obtain ⟨herr, hdefr, hframer, hperr⟩ :=
        ih rest (b + 1) s₁ hlen' hkeys' hvals' hdist' hreg' hmiss'
      refine ⟨?_, ?_, ?_, ?_⟩
      · simp only [setSettingStringListAux, hset]
        exact herr
      · simp only [setSettingStringListAux, hset]
        rw [hdefr, hdef1]
      · intro k' hk'
        simp only [setSettingStringListAux, hset]
        have hk'0 : k' ≠ subKey key b := by
          have := hk' 0 (Nat.succ_pos i')
          rwa [Nat.add_zero] at this
        have hk'r : ∀ j, j < i' → k' ≠ subKey key (b + 1 + j) := by
          intro j hj
          rw [hshift j]
          exact hk' (j + 1) (Nat.succ_lt_succ hj)
        rw [hframer k' hk'r, hframe1 k' hk'0]
      · intro j hj
        cases j with
        | zero =>
          simp only [setSettingStringListAux, hset]
          have hk'r : ∀ j', j' < i' → subKey key b ≠ subKey key (b + 1 + j') := by
            intro j' hj'
            rw [hshift j']
            have := hdist 0 (j' + 1) (Nat.zero_le _)
              (Nat.succ_le_succ (Nat.le_of_lt hj')) (Nat.succ_ne_zero j').symm
            rwa [Nat.add_zero] at this
          rw [Nat.add_zero, hframer _ hk'r]
          exact ⟨item₁, hfind1, htype1, by rwa [List.getD_cons_zero]⟩
        | succ j' =>
          have hj' : j' < i' := Nat.lt_of_succ_lt_succ hj
          obtain ⟨item, hfind, htype, hqeq⟩ := hperr j' hj'
          simp only [setSettingStringListAux, hset]
          refine ⟨item, ?_, htype, ?_⟩
          · rw [← hshift j']
            exact hfind
          · rwa [List.getD_cons_succ]

/-- C10: `setStringList(key, values)` is not atomic on error: when the
sub-keys `key+0 … key+(i-1)` are registered string entries, the serialized
values are legal, and `key+i` (`i < values.length`) is not registered, the
call raises `MissingKeyException`, yet every earlier sub-key `key+j` (`j < i`)
has already been updated to `values[j]` (observable by a subsequent get) and
is not rolled back. -/
theorem C10_setStringList_not_atomic (s : AbstractSettings) (key : String)
    (values : List QStr) (i : Nat)
    (hmd : s.m_default = false)
    (hi : i < values.length)
    (hkeys : ∀ j, j ≤ i →
      ((subKey key j).isEmpty || subKey key j == UNDEFINED) = false)
    (hvals : ∀ j, j ≤ i →
      ((values.getD j none).isNull || qeq (values.getD j none) (some UNDEFINED)) = false)
    (hdist : ∀ j j', j ≤ i → j' ≤ i → j ≠ j' → subKey key j ≠ subKey key j')
    (hreg : ∀ j, j < i → ∃ item,
      s.m_items.find? (fun x => x.key == subKey key j) = some item
      ∧ item.keyType = KeyType.STRING)
    (hmiss : s.m_items.find? (fun x => x.key == subKey key i) = none) :
    (setSettingStringList s key values).2.2 = some .MissingKeyException
    ∧ ∀ j, j < i → ∃ w,
        _q_getSetting (setSettingStringList s key values).1 (subKey key j) .STRING = .ok w
        ∧ w.content = (values.getD j none).content := by
  have hzero : ∀ j : Nat, 0 + j = j := fun j => Nat.zero_add j
  obtain ⟨herr, hdef, _, hper⟩ := setListAux_stops key i values 0 s hi
    (by intro j hj; rw [hzero j]; exact hkeys j hj)
    hvals
    (by intro j j' hj hj' hne; rw [hzero j, hzero j']; exact hdist j j' hj hj' hne)
    (by intro j hj; rw [hzero j]; exact hreg j hj)
    (by rw [hzero i]; exact hmiss)
  refine ⟨herr, ?_⟩
  intro j hj
  obtain ⟨item, hfind, htype, hqeq⟩ := hper j hj
  rw [hzero j] at hfind
  refine ⟨item.value, ?_, ?_⟩
  · simp only [setSettingStringList]
    rw [_q_getSetting, if_neg (by rw [hkeys j (Nat.le_of_lt hj)]; simp),
      getSettingLoop_eq_find, hfind]
    have hdefres : (setSettingStringListAux s key 0 values).1.m_default = false := by
      rw [hdef, hmd]
    simp [htype, hdefres]
  · rw [qeq] at hqeq
    exact beq_iff_eq.mp hqeq

/-- Witness for C10: on a registry where only `"k0"` is registered,
`setStringList("k", ["v0", "v1"])` raises `MissingKeyException` at index 1
while `"k0"` keeps the freshly written `"v0"`. -/
theorem C10_setStringList_not_atomic_witness :
    (setSettingStringList regK0 "k" [some "v0", some "v1"]).2.2
        = some SettingsError.MissingKeyException
    ∧ ∀ j, j < 1 → ∃ w,
        _q_getSetting (setSettingStringList regK0 "k" [some "v0", some "v1"]).1
            (subKey "k" j) .STRING = .ok w
        ∧ w.content = (([some "v0", some "v1"] : List QStr).getD j none).content :=
  C10_setStringList_not_atomic regK0 "k" [some "v0", some "v1"] 1 rfl (by decide)
    (by intro j hj; interval_cases j <;> decide)
    (by intro j hj; interval_cases j <;> decide)
    (by
      intro j j' hj hj' hne
      interval_cases j <;> interval_cases j' <;>
        first
          | exact absurd rfl hne
          | decide)
    (by intro j hj; interval_cases j; exact ⟨itemK0, rfl, rfl⟩)
    rfl

end ArrowDL
